import Mathlib

/-!
Verification development for the shzm JavaScript test/function extractor.

The definitions below are a shallow embedding of the extraction core found in
the repository's parser module: the call-chain resolver (`parseCallee` and its
inner `_traverse`, here `calleeTraverse`), the literal evaluator
(`maybeGetLiteralValue`), the api-annotation rule, the call-site collector
(`findFuncCalls`), the scope resolver and test/hook extractor (`findTests`),
and the exported-function extractor (`findExportedFunc`).

Modelling conventions:
  * ESTree nodes are a closed inductive `Node`; every constructor carries its
    `start`/`end` character offsets (the field `end` is a Lean keyword, so the
    embedding uses `stop`/`endOf`).  Only the node kinds the extractor reads
    are modelled; other kinds appear as `otherExpr tag` (opaque, no children).
    The modelled grammar subset has no array holes, no computed object keys
    and no duplicate literal object keys, matching the shapes the extractor
    is specified for.
  * JavaScript objects built with conditional spread (`...(b && {k: true})`)
    only ever carry the key with value `true`; such optional boolean keys are
    embedded as a `Bool` field where `true` means "key present with value
    true" and `false` means "key absent".  `async` can be `undefined` (when
    read off a non-function node), hence `Option Bool`.
  * Runtime failures of the JavaScript (property access on
    `undefined`/`null`, strict `assert`) are modelled as
    `Except.error JsErr.typeError`; the deliberate `ParseLimitationsError`
    is `JsErr.parseLimitations`.
  * `acorn-walk`'s `ancestor` walk pushes the current node onto the ancestor
    stack before invoking the visitor and fires visitors after the children
    (post-order); `walkCalls` reproduces exactly that: it returns every
    `CallExpression` descendant, in visitor-firing order, paired with its
    ancestor chain (outermost first, current node last).
-/

/-- Value of a JavaScript `Literal` node, as the parser surfaces it (strings,
integral numbers, booleans, null; the modelled subset uses integral numeric
literals). -/
inductive LitVal where
  | str (s : String)
  | num (n : Int)
  | boolVal (b : Bool)
  | nullVal
deriving Repr, DecidableEq

/-- Result of the literal evaluator: a scalar, a plain mapping (insertion
ordered) or an ordered sequence. -/
inductive Value where
  | lit (v : LitVal)
  | obj (fields : List (String × Value))
  | arr (elems : List Value)
deriving Repr

/-- The subset of ESTree node kinds the extractor reads.  Each constructor
carries the node's start and end character offsets first. -/
inductive Node where
  | ident (s e : Nat) (name : String)
  | lit (s e : Nat) (v : LitVal)
  | templateLit (s e : Nat) (quasis : List String) (exprs : List Node)
  | member (s e : Nat) (obj : Node) (property : Node) (computed : Bool)
  | call (s e : Nat) (callee : Node) (args : List Node)
  | thisExpr (s e : Nat)
  | newExpr (s e : Nat) (callee : Node) (args : List Node)
  | arrayExpr (s e : Nat) (elems : List Node)
  | objectExpr (s e : Nat) (props : List Node)
  | prop (s e : Nat) (key : Option Node) (value : Node)
  | arrowFn (s e : Nat) (isAsync : Bool) (body : Node)
  | funcExpr (s e : Nat) (isAsync : Bool) (body : Node)
  | awaitExpr (s e : Nat) (arg : Node)
  | program (s e : Nat) (body : List Node)
  | exprStmt (s e : Nat) (expr : Node)
  | blockStmt (s e : Nat) (body : List Node)
  | exportNamed (s e : Nat) (decl : Option Node)
  | exportDefault (s e : Nat) (decl : Node)
  | varDecl (s e : Nat) (kind : String) (decls : List Node)
  | varDeclarator (s e : Nat) (id : Node) (init : Node)
  | funcDecl (s e : Nat) (name : String) (isAsync : Bool) (body : Node)
  | otherExpr (s e : Nat) (tag : String)
deriving Repr

/-- The node's `start` offset. -/
def Node.startOf : Node → Nat
  | .ident s _ _ => s
  | .lit s _ _ => s
  | .templateLit s _ _ _ => s
  | .member s _ _ _ _ => s
  | .call s _ _ _ => s
  | .thisExpr s _ => s
  | .newExpr s _ _ _ => s
  | .arrayExpr s _ _ => s
  | .objectExpr s _ _ => s
  | .prop s _ _ _ => s
  | .arrowFn s _ _ _ => s
  | .funcExpr s _ _ _ => s
  | .awaitExpr s _ _ => s
  | .program s _ _ => s
  | .exprStmt s _ _ => s
  | .blockStmt s _ _ => s
  | .exportNamed s _ _ => s
  | .exportDefault s _ _ => s
  | .varDecl s _ _ _ => s
  | .varDeclarator s _ _ _ => s
  | .funcDecl s _ _ _ _ => s
  | .otherExpr s _ _ => s

/-- The node's `end` offset. -/
def Node.endOf : Node → Nat
  | .ident _ e _ => e
  | .lit _ e _ => e
  | .templateLit _ e _ _ => e
  | .member _ e _ _ _ => e
  | .call _ e _ _ => e
  | .thisExpr _ e => e
  | .newExpr _ e _ _ => e
  | .arrayExpr _ e _ => e
  | .objectExpr _ e _ => e
  | .prop _ e _ _ => e
  | .arrowFn _ e _ _ => e
  | .funcExpr _ e _ _ => e
  | .awaitExpr _ e _ => e
  | .program _ e _ => e
  | .exprStmt _ e _ => e
  | .blockStmt _ e _ => e
  | .exportNamed _ e _ => e
  | .exportDefault _ e _ => e
  | .varDecl _ e _ _ => e
  | .varDeclarator _ e _ _ => e
  | .funcDecl _ e _ _ _ => e
  | .otherExpr _ e _ => e

/-- The ESTree `type` tag of the node, as a string (used for the shallow
argument descriptors and the unparseable-name placeholder). -/
def Node.typeStr : Node → String
  | .ident _ _ _ => "Identifier"
  | .lit _ _ _ => "Literal"
  | .templateLit _ _ _ _ => "TemplateLiteral"
  | .member _ _ _ _ _ => "MemberExpression"
  | .call _ _ _ _ => "CallExpression"
  | .thisExpr _ _ => "ThisExpression"
  | .newExpr _ _ _ _ => "NewExpression"
  | .arrayExpr _ _ _ => "ArrayExpression"
  | .objectExpr _ _ _ => "ObjectExpression"
  | .prop _ _ _ _ => "Property"
  | .arrowFn _ _ _ _ => "ArrowFunctionExpression"
  | .funcExpr _ _ _ _ => "FunctionExpression"
  | .awaitExpr _ _ _ => "AwaitExpression"
  | .program _ _ _ => "Program"
  | .exprStmt _ _ _ => "ExpressionStatement"
  | .blockStmt _ _ _ => "BlockStatement"
  | .exportNamed _ _ _ => "ExportNamedDeclaration"
  | .exportDefault _ _ _ => "ExportDefaultDeclaration"
  | .varDecl _ _ _ _ => "VariableDeclaration"
  | .varDeclarator _ _ _ _ => "VariableDeclarator"
  | .funcDecl _ _ _ _ _ => "FunctionDeclaration"
  | .otherExpr _ _ tag => tag

/-- Whether the node is a `CallExpression` (the ancestor filter used by the
scope resolver). -/
def isCallNode : Node → Bool
  | .call _ _ _ _ => true
  | _ => false

/-- The `arguments` list of a call node (empty for non-calls; the extractor
only reads it off calls). -/
def argsOf : Node → List Node
  | .call _ _ _ args => args
  | _ => []

/-- The `async` property as JavaScript reads it off an arbitrary node:
defined on function nodes, `undefined` (here `none`) elsewhere. -/
def asyncOf : Node → Option Bool
  | .arrowFn _ _ a _ => some a
  | .funcExpr _ _ a _ => some a
  | .funcDecl _ _ _ a _ => some a
  | _ => none

/-- Whether the node is a function literal (the hook-argument shape check:
`FunctionExpression` or `ArrowFunctionExpression`). -/
def isFuncLiteral : Node → Bool
  | .arrowFn _ _ _ _ => true
  | .funcExpr _ _ _ _ => true
  | _ => false

/-- JavaScript string coercion of `node.property.name`: an identifier's name,
or the text "undefined" when the property node has no `name` (as happens for
a computed access whose property is not an identifier). -/
def propertyNameText : Node → String
  | .ident _ _ nm => nm
  | _ => "undefined"

/-- The inner `_traverse` of the source's `parseCallee`: resolves a callee
expression to its dotted-name string, or `none` (the thrown `IgnoreMe`
sentinel) for unsupported receiver kinds. -/
def calleeTraverse : Node → Option String
  | .ident _ _ nm => some nm
  | .member _ _ obj p _ =>
    match calleeTraverse obj with
    | none => none
    | some s => some (s ++ "." ++ propertyNameText p)
  | .call _ _ c _ =>
    match calleeTraverse c with
    | none => none
    | some s => some (s ++ "()")
  | .thisExpr _ _ => some "this"
  | _ => none

/-- The source's `parseCallee`: string representation of a `CallExpression`'s
callee chain, or `none` for unsupported call syntax. -/
def parseCallee : Node → Option String
  | .call _ _ callee _ => calleeTraverse callee
  | _ => none

/-- Structural character-list comparison: whether the first list is an
initial segment of the second. -/
def charsLead : List Char → List Char → Bool
  | [], _ => true
  | _ :: _, [] => false
  | a :: as, b :: bs => a == b && charsLead as bs

/-- JavaScript `s.startsWith(p)` (structural, so it reduces in proofs). -/
def jsStartsWith (s p : String) : Bool := charsLead p.data s.data

/-- JavaScript `s.endsWith(p)` (structural, so it reduces in proofs). -/
def jsEndsWith (s p : String) : Bool := charsLead p.data.reverse s.data.reverse

/-- Test-family identifier check (`it` or `it.*`). -/
def isTestIdentifier (nm : String) : Bool :=
  nm = "it" || jsStartsWith nm "it."

/-- Group-family identifier check (`describe` or `describe.*`). -/
def isDescribeIdentifier (nm : String) : Bool :=
  nm = "describe" || jsStartsWith nm "describe."

/-- Test-or-group identifier family check. -/
def isTestOrDescribeIdentifier (nm : String) : Bool :=
  isTestIdentifier nm || isDescribeIdentifier nm

/-- Skip-modifier suffix check. -/
def isSkip (nm : String) : Bool := jsEndsWith nm ".skip"

/-- iOS-only modifier suffix check. -/
def isIosOnly (nm : String) : Bool :=
  jsEndsWith nm ".iosOnly" || jsEndsWith nm ".ios"

/-- Android-only modifier suffix check. -/
def isAndroidOnly (nm : String) : Bool :=
  jsEndsWith nm ".androidOnly" || jsEndsWith nm ".android"

/-- Only-modifier suffix check. -/
def isOnly (nm : String) : Bool := jsEndsWith nm ".only"

/-- The four supported hook names, in the source's insertion order. -/
def SUPPORTED_HOOKS : List String :=
  ["beforeAll", "beforeEach", "afterAll", "afterEach"]

/-- JavaScript truthiness of a literal value. -/
def litTruthy : LitVal → Bool
  | .str s => !s.isEmpty
  | .num n => n != 0
  | .boolVal b => b
  | .nullVal => false

/-- JavaScript truthiness of an evaluated value (objects and arrays are
always truthy). -/
def Value.truthy : Value → Bool
  | .lit v => litTruthy v
  | .obj _ => true
  | .arr _ => true

/-- JavaScript string coercion of a literal used as an object key. -/
def LitVal.toKeyString : LitVal → String
  | .str s => s
  | .num n => toString n
  | .boolVal b => if b then "true" else "false"
  | .nullVal => "null"

/-- The source's `getPropertyKey`: `undefined` when the node has no key
(e.g. a spread element) or the key is neither a literal nor an identifier;
otherwise the key literal's value, or the identifier's name. -/
def getPropertyKey : Node → Option LitVal
  | .prop _ _ keyOpt _ =>
    match keyOpt with
    | none => none
    | some (.lit _ _ v) => some v
    | some (.ident _ _ nm) => some (.str nm)
    | some _ => none
  | _ => none

mutual

/-- The source's `maybeGetLiteralValue`: a concrete value when the node is a
literal, or an object/array expression all of whose parts evaluate; `none`
(the JavaScript `undefined`) otherwise.  Faithfully reproduces the source's
truthiness checks: a property key or an evaluated sub-value that is falsy
(`!key` / `!value`) makes the whole evaluation fail. -/
def maybeGetLiteralValue : Node → Option Value
  | .lit _ _ v => some (.lit v)
  | .objectExpr _ _ props =>
    match objLits props with
    | none => none
    | some fields => some (.obj fields)
  | .arrayExpr _ _ elems =>
    match arrLits elems with
    | none => none
    | some vs => some (.arr vs)
  | _ => none

/-- Object-expression branch of `maybeGetLiteralValue`, property by
property. -/
def objLits : List Node → Option (List (String × Value))
  | [] => some []
  | p :: ps =>
    match getPropertyKey p with
    | none => none
    | some k =>
      if litTruthy k then
        match p with
        | .prop _ _ _ v =>
          match maybeGetLiteralValue v with
          | none => none
          | some val =>
            if val.truthy then
              match objLits ps with
              | none => none
              | some rest => some ((k.toKeyString, val) :: rest)
            else none
        | _ => none
      else none

/-- Array-expression branch of `maybeGetLiteralValue`, element by element. -/
def arrLits : List Node → Option (List Value)
  | [] => some []
  | x :: xs =>
    match maybeGetLiteralValue x with
    | none => none
    | some v =>
      if v.truthy then
        match arrLits xs with
        | none => none
        | some rest => some (v :: rest)
      else none

end

/-- Shallow descriptor of one call argument (`{type, start, end}`). -/
structure ArgDesc where
  typeTag : String
  start : Nat
  stop : Nat
deriving Repr, DecidableEq

/-- A deferred (non-fatal) diagnostic embedded in the output. -/
structure DeferredError where
  message : String
  loc : Nat
deriving Repr, DecidableEq

/-- One recorded call site.  `literalArguments` is the index-to-value mapping
(key present in the JavaScript object iff the list is nonempty);
`apiSyncDisabled`/`apiWaitAfter` are the presence-encoded api flags. -/
structure CallSite where
  name : String
  start : Nat
  rootStart : Nat
  stop : Nat
  arguments : List ArgDesc
  isAwait : Bool
  literalArguments : List (Nat × Value)
  apiSyncDisabled : Bool
  apiWaitAfter : Bool
  errors : List DeferredError
deriving Repr

/-- Runtime outcomes of the JavaScript extractor that are not ordinary
returns: a thrown `TypeError`-like failure (property access on
`undefined`/`null`, failed strict assert) or the deliberate
`ParseLimitationsError` with its message and character offset. -/
inductive JsErr where
  | typeError
  | parseLimitations (message : String) (atChar : Nat)
deriving Repr, DecidableEq

/-- The source's `assertPropertyNodeIsLiteralBooleanAndExtract`: returns the
boolean literal value of a property node, or `none` plus a deferred error at
the value's offset.  (Only ever called on property nodes whose key matched
"sync" or "waitAfter", so the non-property fallback is unreachable.) -/
def assertPropertyNodeIsLiteralBooleanAndExtract :
    Node → Option Bool × Option DeferredError
  | .prop _ _ keyOpt v =>
    match v with
    | .lit _ _ (.boolVal b) => (some b, none)
    | _ =>
      let keyName := match keyOpt with
        | some (.ident _ _ nm) => nm
        | _ => "undefined"
      (none, some ⟨"\"" ++ keyName ++
        "\" property is expected to have literal Boolean value (true/false)",
        v.startOf⟩)
  | _ => (none, none)

/-- One step of the api-annotation property scan (the `forEach` body over the
first api argument's properties): accumulates the `sync`-disabled flag, the
`waitAfter` flag, and the deferred errors, in source order. -/
def apiPropStep (acc : Bool × Bool × List DeferredError) (p : Node) :
    Bool × Bool × List DeferredError :=
  let acc1 :=
    if getPropertyKey p = some (.str "sync") then
      match assertPropertyNodeIsLiteralBooleanAndExtract p with
      | (some false, _) => (true, acc.2.1, acc.2.2)
      | (_, some er) => (acc.1, acc.2.1, acc.2.2 ++ [er])
      | _ => acc
    else acc
  if getPropertyKey p = some (.str "waitAfter") then
    match assertPropertyNodeIsLiteralBooleanAndExtract p with
    | (some true, _) => (acc1.1, true, acc1.2.2)
    | (_, some er) => (acc1.1, acc1.2.1, acc1.2.2 ++ [er])
    | _ => acc1
  else acc1

/-- The api-annotation rule applied to a call whose dotted name starts with
"api.": reads `node.callee.object`; when that receiver is a call whose first
argument is an object expression, scans its properties.  When the callee is
not a member expression, `node.callee.object` is `undefined` and reading its
`type` throws (modelled as `typeError`). -/
def apiAnnotation (callee : Node) : Except JsErr (Bool × Bool × List DeferredError) :=
  match callee with
  | .member _ _ obj _ _ =>
    match obj with
    | .call _ _ _ innerArgs =>
      match innerArgs with
      | (.objectExpr _ _ props) :: _ => .ok (props.foldl apiPropStep (false, false, []))
      | _ => .ok (false, false, [])
    | _ => .ok (false, false, [])
  | _ => .error .typeError

/-- The body of the call-site collector's visitor for one `CallExpression`:
given the ancestor chain (current node last, as `acorn-walk` supplies it) and
the node, produce the recorded call site, or `none` when the call is skipped
(unresolvable callee, or the bare `api` receiver). -/
def mkCallSite (ancSelf : List Node) (n : Node) : Except JsErr (Option CallSite) :=
  match n with
  | .call s e callee args =>
    match calleeTraverse callee with
    | none => .ok none
    | some dotted =>
      let parent := ancSelf.dropLast.getLast?
      let descs := args.map (fun a => ArgDesc.mk a.typeStr a.startOf a.endOf)
      let litArgs := args.enum.filterMap (fun pr =>
        match maybeGetLiteralValue pr.2 with
        | some v => if v.truthy then some (pr.1, v) else none
        | none => none)
      if dotted = "api" then .ok none
      else
        match (if jsStartsWith dotted "api." then apiAnnotation callee
               else .ok (false, false, [])) with
        | .error er => .error er
        | .ok (syncDis, waitAft, errs) =>
          .ok (some {
            name := dotted
            start := match callee with
              | .member _ _ _ p _ => p.startOf
              | _ => s
            rootStart := s
            stop := e
            arguments := descs
            isAwait := match parent with
              | some (.awaitExpr _ _ _) => true
              | _ => false
            literalArguments := litArgs
            apiSyncDisabled := syncDis
            apiWaitAfter := waitAft
            errors := errs })
  | _ => .ok none

mutual

/-- The `acorn-walk` ancestor walk restricted to its observable effect here:
every `CallExpression` descendant of the node (the node included), in
post-order visitor-firing order, paired with the ancestor stack at its visit
(outermost first, the call itself last). -/
def walkCalls (anc : List Node) : Node → List (Node × List Node)
  | .ident _ _ _ => []
  | .lit _ _ _ => []
  | .templateLit s e q exprs => walkList (anc ++ [.templateLit s e q exprs]) exprs
  | .member s e o p c =>
    let a := anc ++ [Node.member s e o p c]
    walkCalls a o ++ (if c then walkCalls a p else [])
  | .call s e cal args =>
    let me := Node.call s e cal args
    let a := anc ++ [me]
    walkCalls a cal ++ walkList a args ++ [(me, a)]
  | .thisExpr _ _ => []
  | .newExpr s e cal args =>
    let a := anc ++ [Node.newExpr s e cal args]
    walkCalls a cal ++ walkList a args
  | .arrayExpr s e els => walkList (anc ++ [.arrayExpr s e els]) els
  | .objectExpr s e ps => walkList (anc ++ [.objectExpr s e ps]) ps
  | .prop s e k v => walkCalls (anc ++ [.prop s e k v]) v
  | .arrowFn s e ia b => walkCalls (anc ++ [.arrowFn s e ia b]) b
  | .funcExpr s e ia b => walkCalls (anc ++ [.funcExpr s e ia b]) b
  | .awaitExpr s e x => walkCalls (anc ++ [.awaitExpr s e x]) x
  | .program s e b => walkList (anc ++ [.program s e b]) b
  | .exprStmt s e x => walkCalls (anc ++ [.exprStmt s e x]) x
  | .blockStmt s e b => walkList (anc ++ [.blockStmt s e b]) b
  | .exportNamed _ _ none => []
  | .exportNamed s e (some d) => walkCalls (anc ++ [.exportNamed s e (some d)]) d
  | .exportDefault s e d => walkCalls (anc ++ [.exportDefault s e d]) d
  | .varDecl s e k ds => walkList (anc ++ [.varDecl s e k ds]) ds
  | .varDeclarator s e i ini =>
    let a := anc ++ [Node.varDeclarator s e i ini]
    walkCalls a i ++ walkCalls a ini
  | .funcDecl s e nm ia b => walkCalls (anc ++ [.funcDecl s e nm ia b]) b
  | .otherExpr _ _ _ => []

/-- Walks a list of sibling nodes in order. -/
def walkList (anc : List Node) : List Node → List (Node × List Node)
  | [] => []
  | n :: ns => walkCalls anc n ++ walkList anc ns

end

/-- Folds the call-site visitor over the walk entries, aborting on the first
thrown failure, keeping recorded sites in visit order. -/
def collectCallSites : List (Node × List Node) → Except JsErr (List CallSite)
  | [] => .ok []
  | (n, a) :: rest =>
    match mkCallSite a n with
    | .error er => .error er
    | .ok none => collectCallSites rest
    | .ok (some cs) =>
      match collectCallSites rest with
      | .error er => .error er
      | .ok l => .ok (cs :: l)

/-- The source's `findFuncCalls`: every recorded call site anywhere within
the given subtree (nested function literals included). -/
def findFuncCalls (root : Node) : Except JsErr (List CallSite) :=
  collectCallSites (walkCalls [] root)

/-- The `interleaveArray` utility: `[a1,a2,a3], [b1,b2]` becomes
`[a1,b1,a2,b2,a3]`. -/
def interleaveArray {α : Type} : List α → List α → List α
  | [], b => b
  | a, [] => a
  | x :: xs, y :: ys => x :: y :: interleaveArray xs ys

/-- JavaScript string coercion of `expr.name` inside a template-literal
placeholder: the identifier's name, or the text "undefined". -/
def identNameText : Node → String
  | .ident _ _ nm => nm
  | _ => "undefined"

/-- Name inference for one first-argument node: a literal's value, a
template literal interleaved with placeholder text, a placeholder for a bare
identifier, or an explicit unparseable marker. -/
def inferNameFromArg : Node → LitVal
  | .lit _ _ v => v
  | .templateLit _ _ quasis exprs =>
    .str (String.join (interleaveArray quasis
      (exprs.map (fun ex => "$\x7b" ++ identNameText ex ++ "\x7d"))))
  | .ident _ _ nm => .str ("$\x7b" ++ nm ++ "\x7d")
  | other => .str ("[Unparseable: " ++ other.typeStr ++ "]")

/-- The source's `inferTestName`: label inferred from the call's first
argument.  Reading `arguments[0]` off a call with no arguments throws. -/
def inferTestName (n : Node) : Except JsErr LitVal :=
  match n with
  | .call _ _ _ args =>
    match args with
    | [] => .error .typeError
    | a :: _ => .ok (inferNameFromArg a)
  | _ => .error .typeError

/-- One enclosing test-grouping frame. -/
structure ScopeFrame where
  name : LitVal
  func : String
  start : Nat
  stop : Nat
  skip : Bool
  only : Bool
  iosOnly : Bool
  androidOnly : Bool
deriving Repr, DecidableEq

/-- The scope resolver's node filter applied to an ancestor chain (current
node last): the `CallExpression` ancestors whose callee resolves to a
test-or-group identifier, paired with that dotted name, in outermost-first
order. -/
def scopePairs (ancSelf : List Node) : List (Node × String) :=
  (ancSelf.filter isCallNode).filterMap (fun m =>
    match parseCallee m with
    | some d => if isTestOrDescribeIdentifier d then some (m, d) else none
    | none => none)

/-- Builds one `ScopeFrame` from a filtered ancestor and its dotted name. -/
def mkFrame (p : Node × String) : Except JsErr ScopeFrame :=
  match inferTestName p.1 with
  | .error er => .error er
  | .ok nm => .ok {
      name := nm
      func := p.2
      start := p.1.startOf
      stop := p.1.endOf
      skip := isSkip p.2
      only := isOnly p.2
      iosOnly := isIosOnly p.2
      androidOnly := isAndroidOnly p.2 }

/-- Builds the scope frame list, aborting on the first thrown failure. -/
def mkFrames : List (Node × String) → Except JsErr (List ScopeFrame)
  | [] => .ok []
  | p :: ps =>
    match mkFrame p with
    | .error er => .error er
    | .ok fr =>
      match mkFrames ps with
      | .error er => .error er
      | .ok frs => .ok (fr :: frs)

/-- A produced test case or hook case.  The four aggregate flags are
presence-encoded booleans; the hook push site in the source sets none of
them, so hook records always carry `false` (key absent) for all four. -/
structure CaseRecord where
  scope : List ScopeFrame
  start : Nat
  stop : Nat
  isAsync : Option Bool
  funcStart : Nat
  funcStop : Nat
  calls : List CallSite
  skip : Bool
  only : Bool
  iosOnly : Bool
  androidOnly : Bool
deriving Repr

/-- Builds the test record pushed for a recognized test call (the object
literal at the `tests.push` site, aggregate flags as the OR over scope
frames). -/
def mkTestRec (n : Node) (scope : List ScopeFrame) (fn : Node)
    (cs : List CallSite) : CaseRecord :=
  { scope := scope
    start := n.startOf
    stop := n.endOf
    isAsync := asyncOf fn
    funcStart := fn.startOf
    funcStop := fn.endOf
    calls := cs
    skip := scope.any (fun fr => fr.skip)
    only := scope.any (fun fr => fr.only)
    iosOnly := scope.any (fun fr => fr.iosOnly)
    androidOnly := scope.any (fun fr => fr.androidOnly) }

/-- Builds the hook record pushed for a recognized hook call (the object
literal at the `hooks[dottedName].push` site: no aggregate flags). -/
def mkHookRec (n : Node) (scope : List ScopeFrame) (fn : Node)
    (cs : List CallSite) : CaseRecord :=
  { scope := scope
    start := n.startOf
    stop := n.endOf
    isAsync := asyncOf fn
    funcStart := fn.startOf
    funcStop := fn.endOf
    calls := cs
    skip := false
    only := false
    iosOnly := false
    androidOnly := false }

/-- Outcome of visiting one `CallExpression` in the test/hook extractor. -/
inductive CallOutcome where
  | nothing
  | test (tc : CaseRecord)
  | hook (bucket : String) (hc : CaseRecord)
deriving Repr

/-- The body of `findTests`' visitor for one `CallExpression`: classify the
call as a test, a hook for one of the four buckets, or nothing, mirroring
the source's branch structure and evaluation order (scope frames are built
before the missing-second-argument access can throw). -/
def classifyCall (ancSelf : List Node) (n : Node) : Except JsErr CallOutcome :=
  match parseCallee n with
  | none => .ok .nothing
  | some dotted =>
    if isTestIdentifier dotted then
      match mkFrames (scopePairs ancSelf) with
      | .error er => .error er
      | .ok scope =>
        match (argsOf n).get? 1 with
        | none => .error .typeError
        | some fn =>
          match findFuncCalls fn with
          | .error er => .error er
          | .ok cs => .ok (.test (mkTestRec n scope fn cs))
    else if SUPPORTED_HOOKS.contains dotted then
      match argsOf n with
      | [f] =>
        if isFuncLiteral f then
          if (scopePairs ancSelf).any (fun pr => isTestIdentifier pr.2) then
            .ok .nothing
          else
            match mkFrames (scopePairs ancSelf) with
            | .error er => .error er
            | .ok scope =>
              match findFuncCalls f with
              | .error er => .error er
              | .ok cs => .ok (.hook dotted (mkHookRec n scope f cs))
        else .ok .nothing
      | _ => .ok .nothing
    else .ok .nothing

/-- The initial hook buckets, keyed in the source's insertion order. -/
def hooksInit : List (String × List CaseRecord) :=
  SUPPORTED_HOOKS.map (fun h => (h, []))

/-- Appends a hook record to its bucket (`hooks[dottedName].push`). -/
def pushHook (hooks : List (String × List CaseRecord)) (key : String)
    (hc : CaseRecord) : List (String × List CaseRecord) :=
  hooks.map (fun kv => if kv.1 = key then (kv.1, kv.2 ++ [hc]) else kv)

/-- Runs the classifying visitor over the walk entries in order,
accumulating the tests list and hook buckets. -/
def runVisitor (acc : List CaseRecord × List (String × List CaseRecord)) :
    List (Node × List Node) →
    Except JsErr (List CaseRecord × List (String × List CaseRecord))
  | [] => .ok acc
  | (n, a) :: rest =>
    match classifyCall a n with
    | .error er => .error er
    | .ok .nothing => runVisitor acc rest
    | .ok (.test tc) => runVisitor (acc.1 ++ [tc], acc.2) rest
    | .ok (.hook k hc) => runVisitor (acc.1, pushHook acc.2 k hc) rest

/-- The per-file result of `findTests`: the tests array and the hook-bucket
mapping with its keys in insertion order. -/
structure FindTestsResult where
  tests : List CaseRecord
  hooks : List (String × List CaseRecord)
deriving Repr

/-- The source's `findTests`, over the parser collaborator's result (`none`
is the no-tree sentinel for interpreter-directive files, checked by the
`if (ast)` guard). -/
def findTests : Option Node → Except JsErr FindTestsResult
  | none => .ok ⟨[], hooksInit⟩
  | some ast =>
    match runVisitor ([], hooksInit) (walkCalls [] ast) with
    | .error er => .error er
    | .ok pr => .ok ⟨pr.1, pr.2⟩

/-- One extracted exported function.  `name` is `none` when the declarator's
binding is not a plain identifier (the JavaScript object would carry
`undefined`). -/
structure ExportedFunction where
  name : Option String
  start : Nat
  stop : Nat
  exportStart : Nat
  exportStop : Nat
  funcStart : Nat
  funcStop : Nat
  isAsync : Option Bool
  calls : List CallSite
deriving Repr

/-- The message of the multi-declarator `ParseLimitationsError`. -/
def multiDeclMessage : String :=
  "No support for function export within multi-variable declaration"

/-- Whether a declarator's initializer is an arrow function (the
`d.init.type === ArrowFunctionExpression` probe). -/
def declInitIsArrow : Node → Bool
  | .varDeclarator _ _ _ (.arrowFn _ _ _ _) => true
  | _ => false

/-- The declarator's bound identifier name (`d.id.name`), when the binding
is a plain identifier. -/
def declIdName : Node → Option String
  | .varDeclarator _ _ (.ident _ _ nm) _ => some nm
  | _ => none

/-- The source's `maybeRegisterVariableDeclarations`: handles a `const`
declaration (exported in place when `exportSpan` is given, or matched
against the file's default-exported identifier).  A multi-declarator
statement containing an arrow-function initializer throws the
`ParseLimitationsError` at the second declarator's offset. -/
def maybeRegisterVariableDeclarations (defaultDecl : Option Node)
    (decls : List Node) (exportSpan : Option (Nat × Nat)) (spanS spanE : Nat) :
    Except JsErr (Option ExportedFunction) :=
  let defaultName : Option String := match defaultDecl with
    | some (.exportDefault _ _ (.ident _ _ nm)) => some nm
    | _ => none
  let hasArrow := decls.any declInitIsArrow
  let hasMatch := defaultName.isSome &&
    decls.any (fun d => declIdName d = defaultName)
  if !hasArrow then .ok none
  else if exportSpan.isNone && !hasMatch then .ok none
  else
    match decls with
    | _ :: d2 :: _ => .error (.parseLimitations multiDeclMessage d2.startOf)
    | [d] =>
      match d with
      | .varDeclarator _ _ id ini =>
        match ini with
        | .arrowFn _ _ aAsync aBody =>
          let eSpan : Option (Nat × Nat) := match exportSpan with
            | some pr => some pr
            | none =>
              match defaultDecl with
              | some dd => some (dd.startOf, dd.endOf)
              | none => none
          match eSpan with
          | none => .error .typeError
          | some (xs, xe) =>
            match findFuncCalls aBody with
            | .error er => .error er
            | .ok cs => .ok (some {
                name := match id with
                  | .ident _ _ nm => some nm
                  | _ => none
                start := spanS
                stop := spanE
                exportStart := xs
                exportStop := xe
                funcStart := aBody.startOf
                funcStop := aBody.endOf
                isAsync := some aAsync
                calls := cs })
        | _ => .error .typeError
      | _ => .error .typeError
    | [] => .ok none

/-- The source's `registerExportedFuncNode`, for function declarations. -/
def registerExportedFuncNode (nm : String) (isA : Bool) (body : Node)
    (exportS exportE startS startE : Nat) : Except JsErr ExportedFunction :=
  match findFuncCalls body with
  | .error er => .error er
  | .ok cs => .ok {
      name := some nm
      start := startS
      stop := startE
      exportStart := exportS
      exportStop := exportE
      funcStart := body.startOf
      funcStop := body.endOf
      isAsync := some isA
      calls := cs }

/-- Dispatch for one top-level statement of the exported-function
extractor. -/
def exportStatementStep (defaultDecl : Option Node) (st : Node) :
    Except JsErr (Option ExportedFunction) :=
  match st with
  | .exportNamed s e (some decl) =>
    match decl with
    | .funcDecl _ _ nm isA body =>
      match registerExportedFuncNode nm isA body s e s e with
      | .error er => .error er
      | .ok fn => .ok (some fn)
    | .varDecl _ _ kind decls =>
      if kind = "const" then
        maybeRegisterVariableDeclarations defaultDecl decls (some (s, e)) s e
      else .ok none
    | _ => .ok none
  | .varDecl s e kind decls =>
    if kind = "const" then
      maybeRegisterVariableDeclarations defaultDecl decls none s e
    else .ok none
  | .funcDecl s e nm isA body =>
    (match defaultDecl with
     | some (.exportDefault ds de (.ident _ _ dn)) =>
       if dn = nm then
         match registerExportedFuncNode nm isA body ds de s e with
         | .error er => .error er
         | .ok fn => .ok (some fn)
       else .ok none
     | _ => .ok none)
  | _ => .ok none

/-- Folds the statement dispatch over the file body, aborting on the first
thrown failure (so a fatal condition discards all registrations). -/
def processExportBody (defaultDecl : Option Node) :
    List Node → Except JsErr (List ExportedFunction)
  | [] => .ok []
  | st :: rest =>
    match exportStatementStep defaultDecl st with
    | .error er => .error er
    | .ok none => processExportBody defaultDecl rest
    | .ok (some fn) =>
      match processExportBody defaultDecl rest with
      | .error er => .error er
      | .ok l => .ok (fn :: l)

/-- Whether a statement is `export default IDENT;` (the pre-pass probe). -/
def isDefaultIdentExport : Node → Bool
  | .exportDefault _ _ (.ident _ _ _) => true
  | _ => false

/-- The source's `findExportedFunc`, over the parser collaborator's result.
Unlike `findTests` it has no null guard: on the no-tree sentinel the very
first access `ast.body` throws (modelled as `typeError`). -/
def findExportedFunc : Option Node → Except JsErr (List ExportedFunction)
  | none => .error .typeError
  | some ast =>
    match ast with
    | .program _ _ body => processExportBody (body.find? isDefaultIdentExport) body
    | _ => .error .typeError

/-- Modelled from the spec: callee expressions "built only from identifiers,
non-computed member accesses, nested calls, and `this`" (the supported
call-chain shapes of the resolver contract). -/
def supportedCallee : Node → Bool
  | .ident _ _ _ => true
  | .member _ _ obj p computed =>
    !computed && (match p with | .ident _ _ _ => true | _ => false) &&
      supportedCallee obj
  | .call _ _ c _ => supportedCallee c
  | .thisExpr _ _ => true
  | _ => false

/-- Modelled from the spec: the dotted concatenation rule of the resolver
contract (identifier name; `resolve(a) + "." + b` for member access; a
literal "()" marker for a call used as receiver; the token "this").  Only
constrained on `supportedCallee` shapes. -/
def specResolve : Node → String
  | .ident _ _ nm => nm
  | .member _ _ obj p _ => specResolve obj ++ "." ++ propertyNameText p
  | .call _ _ c _ => specResolve c ++ "()"
  | .thisExpr _ _ => "this"
  | _ => ""

mutual

/-- Modelled from the spec: "every reachable leaf of that expression is
itself a literal", with object keys required to be plain
identifiers-or-literals (the literal evaluator's contract). -/
def specAllLiteralLeaves : Node → Bool
  | .lit _ _ _ => true
  | .objectExpr _ _ props => specAllProps props
  | .arrayExpr _ _ elems => specAllElems elems
  | _ => false

/-- Property list check for `specAllLiteralLeaves`. -/
def specAllProps : List Node → Bool
  | [] => true
  | p :: ps =>
    (match p with
     | .prop _ _ (some (.ident _ _ _)) v => specAllLiteralLeaves v
     | .prop _ _ (some (.lit _ _ _)) v => specAllLiteralLeaves v
     | _ => false) && specAllProps ps

/-- Element list check for `specAllLiteralLeaves`. -/
def specAllElems : List Node → Bool
  | [] => true
  | x :: xs => specAllLiteralLeaves x && specAllElems xs

end

/-- Syntax tree of
`describe("A", () => { describe("B", () => { it("C", () => {}); }); });`
(one test nested in two groups). -/
def c1Tree : Node :=
  .program 0 70 [.exprStmt 0 70 (.call 0 69 (.ident 0 8 "describe")
    [.lit 9 12 (.str "A"),
     .arrowFn 14 68 false (.blockStmt 20 68 [.exprStmt 22 66
       (.call 22 65 (.ident 22 30 "describe")
         [.lit 31 34 (.str "B"),
          .arrowFn 36 64 false (.blockStmt 42 64 [.exprStmt 44 62
            (.call 44 61 (.ident 44 46 "it")
              [.lit 47 50 (.str "C"),
               .arrowFn 52 60 false (.blockStmt 58 60 [])])])])])])]

/-- Syntax tree of `api({ sync: false, waitAfter: true }).submit()`. -/
def c2TreeLit : Node :=
  .call 0 46 (.member 0 44
    (.call 0 38 (.ident 0 3 "api")
      [.objectExpr 4 37
        [.prop 6 17 (some (.ident 6 10 "sync")) (.lit 12 17 (.boolVal false)),
         .prop 19 34 (some (.ident 19 28 "waitAfter")) (.lit 30 34 (.boolVal true))]])
    (.ident 39 45 "submit") false) []

/-- Syntax tree of `api({ sync: someVariable, waitAfter: true }).submit()`
(the `sync` value is a non-literal). -/
def c2TreeVar : Node :=
  .call 0 53 (.member 0 51
    (.call 0 45 (.ident 0 3 "api")
      [.objectExpr 4 44
        [.prop 6 24 (some (.ident 6 10 "sync")) (.ident 12 24 "someVariable"),
         .prop 26 41 (some (.ident 26 35 "waitAfter")) (.lit 37 41 (.boolVal true))]])
    (.ident 46 52 "submit") false) []

/-- Syntax tree of `a[0].c()` (computed/bracket member access in the callee
chain). -/
def c3Tree : Node :=
  .call 0 9 (.member 0 7
    (.member 0 4 (.ident 0 1 "a") (.lit 2 3 (.num 0)) true)
    (.ident 5 6 "c") false) []

/-- A supported callee chain, `this.foo().bar`. -/
def c3Supported : Node :=
  .member 0 14 (.call 0 10 (.member 0 8 (.thisExpr 0 4) (.ident 5 8 "foo") false) [])
    (.ident 11 14 "bar") false

/-- Syntax tree of the argument `{ a: false }` (all leaves are literals, but
the value is falsy). -/
def c4BadObj : Node :=
  .objectExpr 0 12 [.prop 2 10 (some (.ident 2 3 "a")) (.lit 5 10 (.boolVal false))]

/-- Syntax tree of `f(false)` (a falsy scalar literal argument). -/
def c4CallFalse : Node :=
  .call 0 8 (.ident 0 1 "f") [.lit 2 7 (.boolVal false)]

/-- Syntax tree of `f(5, { a: 1 })` (truthy literal arguments). -/
def c4CallTruthy : Node :=
  .call 0 14 (.ident 0 1 "f")
    [.lit 2 3 (.num 5),
     .objectExpr 5 13 [.prop 7 11 (some (.ident 7 8 "a")) (.lit 10 11 (.num 1))]]

/-- Syntax tree of `it.skip("x", () => {});` at file top level. -/
def c5SkipTree : Node :=
  .program 0 25 [.exprStmt 0 25
    (.call 0 24 (.member 0 7 (.ident 0 2 "it") (.ident 3 7 "skip") false)
      [.lit 8 11 (.str "x"), .arrowFn 13 23 false (.blockStmt 19 23 [])])]

/-- Syntax tree of `describe.only("G", () => { it("y", () => {}); });`. -/
def c5OnlyTree : Node :=
  .program 0 52 [.exprStmt 0 52
    (.call 0 51 (.member 0 13 (.ident 0 8 "describe") (.ident 9 13 "only") false)
      [.lit 14 17 (.str "G"),
       .arrowFn 19 50 false (.blockStmt 25 50 [.exprStmt 27 48
         (.call 27 47 (.ident 27 29 "it")
           [.lit 30 33 (.str "y"),
            .arrowFn 35 46 false (.blockStmt 41 46 [])])])])]

/-- Syntax tree of `describe.skip("G", () => { beforeEach(() => {}); });`
(a hook whose enclosing group carries a skip modifier). -/
def c5HookTree : Node :=
  .program 0 52 [.exprStmt 0 52
    (.call 0 51 (.member 0 13 (.ident 0 8 "describe") (.ident 9 13 "skip") false)
      [.lit 14 17 (.str "G"),
       .arrowFn 19 50 false (.blockStmt 25 50 [.exprStmt 27 48
         (.call 27 47 (.ident 27 37 "beforeEach")
           [.arrowFn 38 46 false (.blockStmt 44 46 [])])])])]

/-- Syntax tree of `beforeEach(() => {});` at file top level. -/
def c6TopHookTree : Node :=
  .program 0 22 [.exprStmt 0 22
    (.call 0 21 (.ident 0 10 "beforeEach")
      [.arrowFn 11 20 false (.blockStmt 17 20 [])])]

/-- Syntax tree of `it("t", () => { beforeEach(() => {}); });` (a hook
mistakenly nested inside a single test). -/
def c6NestedHookTree : Node :=
  .program 0 42 [.exprStmt 0 42
    (.call 0 41 (.ident 0 2 "it")
      [.lit 3 6 (.str "t"),
       .arrowFn 8 40 false (.blockStmt 14 40 [.exprStmt 16 38
         (.call 16 37 (.ident 16 26 "beforeEach")
           [.arrowFn 27 36 false (.blockStmt 33 36 [])])])])]

/-- A `beforeEach` hook call for the witness instantiation. -/
def c6WitnessCall : Node :=
  .call 0 21 (.ident 0 10 "beforeEach") [.arrowFn 11 20 false (.blockStmt 17 20 [])]

/-- Syntax tree of
`export function f() {}; export const a = x, b = () => {};` (a sound export
followed by the fatal multi-declarator statement). -/
def c7TwoStmtTree : Node :=
  .program 0 64 [
    .exportNamed 0 23 (some (.funcDecl 7 23 "f" false (.blockStmt 21 23 []))),
    .exportNamed 24 64 (some (.varDecl 31 64 "const"
      [.varDeclarator 37 42 (.ident 37 38 "a") (.ident 41 42 "x"),
       .varDeclarator 44 56 (.ident 44 45 "b")
         (.arrowFn 48 56 false (.blockStmt 54 56 []))]))]

/-- Syntax tree of `const a = x, b = () => {}; export default b;` (the
multi-declarator condition reached through a default-export identifier). -/
def c7DefaultTree : Node :=
  .program 0 46 [
    .varDecl 0 26 "const"
      [.varDeclarator 6 11 (.ident 6 7 "a") (.ident 10 11 "x"),
       .varDeclarator 13 25 (.ident 13 14 "b")
         (.arrowFn 17 25 false (.blockStmt 23 25 []))],
    .exportDefault 27 45 (.ident 42 43 "b")]

/-- Syntax tree of a program whose only statement is `beforeAll(() => {});`
(exercises the `beforeAll` output key). -/
def c8HookTree : Node :=
  .program 0 21 [.exprStmt 0 21
    (.call 0 20 (.ident 0 9 "beforeAll")
      [.arrowFn 10 19 false (.blockStmt 16 19 [])])]

/-- Syntax tree of `it("x");` (a test-family call with a single argument). -/
def c10ArityTree : Node :=
  .program 0 9 [.exprStmt 0 9 (.call 0 8 (.ident 0 2 "it") [.lit 3 6 (.str "x")])]

/-- Syntax tree of `it("x", () => {});` (the same call with the required
second argument). -/
def c10OkTree : Node :=
  .program 0 19 [.exprStmt 0 19
    (.call 0 18 (.ident 0 2 "it")
      [.lit 3 6 (.str "x"), .arrowFn 8 17 false (.blockStmt 14 17 [])])]

/-- Helper for claim C3: on supported callee shapes the source resolver
computes exactly the spec's concatenation rule. -/
theorem calleeTraverse_supported :
    ∀ c, supportedCallee c = true → calleeTraverse c = some (specResolve c)
  | .ident _ _ _, _ => rfl
  | .thisExpr _ _, _ => rfl
  | .member s e obj p comp, h => by
    have hobj : supportedCallee obj = true := by
      simp only [supportedCallee, Bool.and_eq_true] at h
      exact h.2
    have ih := calleeTraverse_supported obj hobj
    simp only [calleeTraverse, specResolve, ih]
  | .call s e cal args, h => by
    have hcal : supportedCallee cal = true := by
      simpa only [supportedCallee] using h
    have ih := calleeTraverse_supported cal hcal
    simp only [calleeTraverse, specResolve, ih]
  | .lit _ _ _, h => by simp [supportedCallee] at h
  | .templateLit _ _ _ _, h => by simp [supportedCallee] at h
  | .newExpr _ _ _ _, h => by simp [supportedCallee] at h
  | .arrayExpr _ _ _, h => by simp [supportedCallee] at h
  | .objectExpr _ _ _, h => by simp [supportedCallee] at h
  | .prop _ _ _ _, h => by simp [supportedCallee] at h
  | .arrowFn _ _ _ _, h => by simp [supportedCallee] at h
  | .funcExpr _ _ _ _, h => by simp [supportedCallee] at h
  | .awaitExpr _ _ _, h => by simp [supportedCallee] at h
  | .program _ _ _, h => by simp [supportedCallee] at h
  | .exprStmt _ _ _, h => by simp [supportedCallee] at h
  | .blockStmt _ _ _, h => by simp [supportedCallee] at h
  | .exportNamed _ _ _, h => by simp [supportedCallee] at h
  | .exportDefault _ _ _, h => by simp [supportedCallee] at h
  | .varDecl _ _ _ _, h => by simp [supportedCallee] at h
  | .varDeclarator _ _ _ _, h => by simp [supportedCallee] at h
  | .funcDecl _ _ _ _ _, h => by simp [supportedCallee] at h
  | .otherExpr _ _ _, h => by simp [supportedCallee] at h

/-- Helper for claim C3: a call whose callee fails to resolve is not
recorded by the call-site collector. -/
theorem mkCallSite_none (anc : List Node) (n : Node)
    (h : parseCallee n = none) : mkCallSite anc n = .ok none := by
  cases n <;> simp_all [mkCallSite, parseCallee]

/-- Helper: the name-inference step only ever throws the runtime type
error. -/
theorem inferTestName_err (n : Node) (er : JsErr)
    (h : inferTestName n = .error er) : er = .typeError := by
  unfold inferTestName at h
  split at h
  · split at h
    · exact (Except.error.injEq _ _ ▸ h.symm : _)
    · simp at h
  · cases h; rfl

/-- Helper: frame construction only ever throws the runtime type error. -/
theorem mkFrame_err (p : Node × String) (er : JsErr)
    (h : mkFrame p = .error er) : er = .typeError := by
  unfold mkFrame at h
  split at h
  · cases h; exact inferTestName_err p.1 er (by assumption)
  · simp at h

/-- Helper: frame-list construction only ever throws the runtime type
error. -/
theorem mkFrames_err : ∀ (l : List (Node × String)) (er : JsErr),
    mkFrames l = .error er → er = .typeError
  | [], er, h => by simp [mkFrames] at h
  | p :: ps, er, h => by
    unfold mkFrames at h
    split at h
    · cases h; exact mkFrame_err p er (by assumption)
    · split at h
      · cases h; exact mkFrames_err ps er (by assumption)
      · simp at h

/-- Helper: every test record the classifier emits aggregates each flag as
the OR of its scope frames' flags. -/
theorem classify_test_flags (anc : List Node) (n : Node) (tc : CaseRecord)
    (h : classifyCall anc n = .ok (.test tc)) :
    tc.skip = tc.scope.any (fun fr => fr.skip) ∧
    tc.only = tc.scope.any (fun fr => fr.only) ∧
    tc.iosOnly = tc.scope.any (fun fr => fr.iosOnly) ∧
    tc.androidOnly = tc.scope.any (fun fr => fr.androidOnly) := by
  unfold classifyCall at h
  split at h
  · simp at h
  · split at h
    · split at h
      · simp at h
      · split at h
        · simp at h
        · split at h
          · simp at h
          · simp only [Except.ok.injEq, CallOutcome.test.injEq] at h
            subst h
            simp [mkTestRec]
    · repeat' split at h
      all_goals simp_all

/-- Helper: none of the four hook names is a test-family identifier. -/
theorem hook_name_not_test (d : String) (h : SUPPORTED_HOOKS.contains d = true) :
    isTestIdentifier d = false := by
  simp [SUPPORTED_HOOKS, List.contains] at h
  rcases h with rfl | rfl | rfl | rfl <;> decide

/-- Helper: every hook record the classifier emits carries no aggregate
flags (all four presence-encoded booleans are `false`). -/
theorem classify_hook_flags (anc : List Node) (n : Node) (k : String)
    (hc : CaseRecord) (h : classifyCall anc n = .ok (.hook k hc)) :
    hc.skip = false ∧ hc.only = false ∧ hc.iosOnly = false ∧
    hc.androidOnly = false := by
  unfold classifyCall at h
  repeat' split at h
  all_goals simp_all [mkHookRec]
  obtain ⟨rfl, rfl⟩ := h.symm
  simp [mkHookRec]

/-- Helper for claim C6: when a hook is recorded, all the recognition
conditions held. -/
theorem classify_hook_conditions (anc : List Node) (n : Node) (k : String)
    (hc : CaseRecord) (h : classifyCall anc n = .ok (.hook k hc)) :
    parseCallee n = some k ∧ SUPPORTED_HOOKS.contains k = true ∧
    (argsOf n).length = 1 ∧ (argsOf n).all isFuncLiteral = true ∧
    (scopePairs anc).any (fun pr => isTestIdentifier pr.2) = false := by
  unfold classifyCall at h
  repeat' split at h
  all_goals simp_all
  assumption

/-- Helper for claim C6: when every recognition condition holds (and the
frame construction and nested collection succeed), the hook is recorded in
the bucket named by the resolved name, with the record built at the push
site. -/
theorem classify_hook_build (anc : List Node) (n : Node) (d : String) (f : Node)
    (scope : List ScopeFrame) (cs : List CallSite)
    (h1 : parseCallee n = some d) (h2 : SUPPORTED_HOOKS.contains d = true)
    (h3 : argsOf n = [f]) (h4 : isFuncLiteral f = true)
    (h5 : (scopePairs anc).any (fun pr => isTestIdentifier pr.2) = false)
    (h6 : mkFrames (scopePairs anc) = .ok scope)
    (h7 : findFuncCalls f = .ok cs) :
    classifyCall anc n = .ok (.hook d (mkHookRec n scope f cs)) := by
  have hnt := hook_name_not_test d h2
  unfold classifyCall
  rw [h1]
  simp only [hnt, Bool.false_eq_true, if_false, h2, if_true, h3, h4, h5, h6, h7]

/-- Helper for claim C6: a call resolving to a hook name with any arity
other than one is ignored with no record and no thrown failure. -/
theorem classify_hook_badArity (anc : List Node) (n : Node) (d : String)
    (h1 : parseCallee n = some d) (h2 : SUPPORTED_HOOKS.contains d = true)
    (h3 : (argsOf n).length ≠ 1) :
    classifyCall anc n = .ok .nothing := by
  have hnt := hook_name_not_test d h2
  unfold classifyCall
  rw [h1]
  simp only [hnt, Bool.false_eq_true, if_false, h2, if_true]
  match hm : argsOf n with
  | [] => rfl
  | [f] => exact absurd (by rw [hm]; rfl) h3
  | _ :: _ :: _ => rfl

/-- Helper for claim C6: a one-argument call resolving to a hook name whose
argument is not a function literal is ignored with no record and no thrown
failure. -/
theorem classify_hook_badShape (anc : List Node) (n : Node) (d : String) (f : Node)
    (h1 : parseCallee n = some d) (h2 : SUPPORTED_HOOKS.contains d = true)
    (h3 : argsOf n = [f]) (h4 : isFuncLiteral f = false) :
    classifyCall anc n = .ok .nothing := by
  have hnt := hook_name_not_test d h2
  unfold classifyCall
  rw [h1]
  simp only [hnt, Bool.false_eq_true, if_false, h2, if_true, h3, h4]

/-- Helper for claim C10: a test-family call given fewer than two arguments
makes the classifier throw the runtime type error. -/
theorem classify_test_arity (anc : List Node) (n : Node) (d : String)
    (h1 : parseCallee n = some d) (h2 : isTestIdentifier d = true)
    (h3 : (argsOf n).length < 2) :
    classifyCall anc n = .error .typeError := by
  unfold classifyCall
  rw [h1]
  simp only [h2, if_true]
  match hm : mkFrames (scopePairs anc) with
  | .error er => rw [mkFrames_err (scopePairs anc) er hm]
  | .ok scope =>
    have : (argsOf n).get? 1 = none := by
      rw [List.get?_eq_none]
      omega
    rw [this]

/-- Helper: a record found in a bucket after a push was either already in
some bucket or is the pushed record. -/
theorem pushHook_mem (hooks : List (String × List CaseRecord)) (k : String)
    (hc : CaseRecord) (kv : String × List CaseRecord)
    (hkv : kv ∈ pushHook hooks k hc) (x : CaseRecord) (hx : x ∈ kv.2) :
    (∃ kv0 ∈ hooks, x ∈ kv0.2) ∨ x = hc := by
  unfold pushHook at hkv
  obtain ⟨kv0, hkv0, hmap⟩ := List.mem_map.mp hkv
  by_cases hk : kv0.1 = k
  · rw [if_pos hk] at hmap
    subst hmap
    simp only at hx
    rcases List.mem_append.mp hx with hx0 | hx1
    · exact Or.inl ⟨kv0, hkv0, hx0⟩
    · exact Or.inr (List.mem_singleton.mp hx1)
  · rw [if_neg hk] at hmap
    subst hmap
    exact Or.inl ⟨kv0, hkv0, hx⟩

/-- Helper: properties of emitted test and hook records are invariants of
the visitor fold. -/
theorem runVisitor_preserve (P Q : CaseRecord → Prop)
    (hP : ∀ a n tc, classifyCall a n = .ok (.test tc) → P tc)
    (hQ : ∀ a n k hc, classifyCall a n = .ok (.hook k hc) → Q hc) :
    ∀ (L : List (Node × List Node))
      (acc out : List CaseRecord × List (String × List CaseRecord)),
      runVisitor acc L = .ok out →
      (∀ tc ∈ acc.1, P tc) → (∀ kv ∈ acc.2, ∀ hc ∈ kv.2, Q hc) →
      (∀ tc ∈ out.1, P tc) ∧ (∀ kv ∈ out.2, ∀ hc ∈ kv.2, Q hc)
  | [], acc, out, h, hT, hH => by
    unfold runVisitor at h
    obtain rfl : acc = out := by simpa using h
    exact ⟨hT, hH⟩
  | (n, a) :: rest, acc, out, h, hT, hH => by
    unfold runVisitor at h
    split at h
    · simp at h
    · exact runVisitor_preserve P Q hP hQ rest acc out h hT hH
    · rename_i tc hcl
      refine runVisitor_preserve P Q hP hQ rest _ out h ?_ hH
      intro x hx
      rcases List.mem_append.mp hx with hx0 | hx1
      · exact hT x hx0
      · rw [List.mem_singleton.mp hx1]
        exact hP a n tc hcl
    · rename_i k hc hcl
      refine runVisitor_preserve P Q hP hQ rest _ out h hT ?_
      intro kv hkv x hx
      rcases pushHook_mem acc.2 k hc kv hkv x hx with ⟨kv0, hkv0, hx0⟩ | rfl
      · exact hH kv0 hkv0 x hx0
      · exact hQ a n k x hcl

/-- Helper: the initial hook buckets are all empty. -/
theorem hooksInit_empty (kv : String × List CaseRecord) (h : kv ∈ hooksInit) :
    kv.2 = [] := by
  unfold hooksInit at h
  obtain ⟨k0, _, hkv⟩ := List.mem_map.mp h
  rw [← hkv]

/-- Helper: lifts the per-call record properties to the whole `findTests`
output. -/
theorem findTests_preserve (P Q : CaseRecord → Prop)
    (hP : ∀ a n tc, classifyCall a n = .ok (.test tc) → P tc)
    (hQ : ∀ a n k hc, classifyCall a n = .ok (.hook k hc) → Q hc)
    (ast : Option Node) (r : FindTestsResult) (h : findTests ast = .ok r) :
    (∀ tc ∈ r.tests, P tc) ∧ (∀ kv ∈ r.hooks, ∀ hc ∈ kv.2, Q hc) := by
  cases ast with
  | none =>
    obtain rfl : (⟨[], hooksInit⟩ : FindTestsResult) = r := by
      simpa [findTests] using h
    refine ⟨by simp, ?_⟩
    intro kv hkv hc hhc
    rw [hooksInit_empty kv hkv] at hhc
    simp at hhc
  | some tree =>
    simp only [findTests] at h
    split at h
    · simp at h
    · rename_i pr hrun
      obtain rfl : (⟨pr.1, pr.2⟩ : FindTestsResult) = r := by simpa using h
      exact runVisitor_preserve P Q hP hQ (walkCalls [] tree)
        ([], hooksInit) pr hrun (by simp)
        (fun kv hkv hc hhc => by
          rw [hooksInit_empty kv hkv] at hhc
          simp at hhc)

/-- Helper for claim C5: each frame's modifier flags come from suffix
matching on its resolved name. -/
theorem mkFrame_flags (p : Node × String) (fr : ScopeFrame)
    (h : mkFrame p = .ok fr) :
    fr.skip = isSkip fr.func ∧ fr.only = isOnly fr.func ∧
    fr.iosOnly = isIosOnly fr.func ∧ fr.androidOnly = isAndroidOnly fr.func := by
  unfold mkFrame at h
  split at h
  · simp at h
  · obtain rfl : _ = fr := by simpa using h
    simp

/-- Claim C1 (counterexample): on the tree of
`describe("A", () => { describe("B", () => { it("C", () => {}); }); })` the
extractor yields exactly one test case, but that test's `scope` has three
frames, not two: the ancestor stack includes the visited call itself, so the
test's own frame is part of its scope. -/
theorem c1_counterexample :
    (findTests (some c1Tree)).map
      (fun r => (r.tests.length, r.tests.map (fun tc => tc.scope.length))) =
      .ok (1, [3]) ∧ (1, [3]) ≠ ((1, [2]) : Nat × List Nat) :=
  ⟨rfl, by decide⟩

/-- Claim C1 (amended): the tree yields exactly one test case whose `scope`
has exactly three frames, labeled "A", "B" and "C" in outermost-first order,
the innermost frame being the `it` call itself. -/
theorem c1_scope_three_frames :
    (findTests (some c1Tree)).map (fun r => r.tests.map
      (fun tc => tc.scope.map (fun fr => (fr.name, fr.func)))) =
      .ok [[(.str "A", "describe"), (.str "B", "describe"), (.str "C", "it")]] ∧
    (findTests (some c1Tree)).map
      (fun r => (r.tests.length, r.hooks.map (fun kv => kv.2.length))) =
      .ok (1, [0, 0, 0, 0]) :=
  ⟨rfl, rfl⟩

/-- Claim C2 (code bug): `api({ sync: false, waitAfter: true }).submit()`
resolves to the name "api().submit", which does not begin with "api.", so
the api-annotation branch never fires for this shape: the one recorded call
site carries neither `apiSyncDisabled` nor `apiWaitAfter`, and the
`sync: someVariable` variant records no deferred error either. -/
theorem c2_api_annotation_dead :
    (findFuncCalls c2TreeLit).map (fun l => l.map (fun cs =>
      (cs.name, cs.apiSyncDisabled, cs.apiWaitAfter, cs.errors))) =
      .ok [("api().submit", false, false, [])] ∧
    (findFuncCalls c2TreeVar).map (fun l => l.map (fun cs =>
      (cs.name, cs.apiSyncDisabled, cs.apiWaitAfter, cs.errors))) =
      .ok [("api().submit", false, false, [])] ∧
    jsStartsWith "api().submit" "api." = false :=
  ⟨rfl, rfl, rfl⟩

/-- Claim C3 (counterexample): the computed/bracket access `a[0].c()` is not
rejected: it resolves to the name "a.undefined.c" and the call site is
present in the collector's output. -/
theorem c3_counterexample :
    (findFuncCalls c3Tree).map (fun l => l.map (fun cs => cs.name)) =
      .ok ["a.undefined.c"] ∧
    (findFuncCalls c3Tree).map List.length = .ok 1 :=
  ⟨rfl, rfl⟩

/-- Claim C3 (amended): on callees built from identifiers, member accesses,
nested calls and `this`, the resolver computes exactly the dotted
concatenation rule; array/object/string/template-literal and new-expression
receivers abort resolution and the call site is absent from the output; a
computed/bracket member access, however, is not rejected — the `computed`
flag is ignored entirely (its property contributes its identifier name, or
the text "undefined"). -/
theorem c3_resolver_amended :
    (∀ c, supportedCallee c = true → calleeTraverse c = some (specResolve c)) ∧
    (∀ s e l, calleeTraverse (Node.arrayExpr s e l) = none) ∧
    (∀ s e ps, calleeTraverse (Node.objectExpr s e ps) = none) ∧
    (∀ s e v, calleeTraverse (Node.lit s e v) = none) ∧
    (∀ s e q x, calleeTraverse (Node.templateLit s e q x) = none) ∧
    (∀ s e c a, calleeTraverse (Node.newExpr s e c a) = none) ∧
    (∀ s e o p cp, calleeTraverse o = none →
      calleeTraverse (Node.member s e o p cp) = none) ∧
    (∀ s e o a, calleeTraverse o = none →
      calleeTraverse (Node.call s e o a) = none) ∧
    (∀ anc n, parseCallee n = none → mkCallSite anc n = .ok none) ∧
    (∀ s e o p, calleeTraverse (Node.member s e o p true) =
      calleeTraverse (Node.member s e o p false)) := by
  refine ⟨calleeTraverse_supported, fun _ _ _ => rfl, fun _ _ _ => rfl,
    fun _ _ _ => rfl, fun _ _ _ _ => rfl, fun _ _ _ _ => rfl,
    ?_, ?_, mkCallSite_none, fun _ _ _ _ => rfl⟩
  · intro s e o p cp h
    simp [calleeTraverse, h]
  · intro s e o a h
    simp [calleeTraverse, h]

/-- Witness for claim C3: the supported chain `this.foo().bar` resolves to
exactly the concatenation rule's result. -/
theorem c3_resolver_amended_witness :
    supportedCallee c3Supported = true ∧
    calleeTraverse c3Supported = some (specResolve c3Supported) ∧
    specResolve c3Supported = "this.foo().bar" :=
  ⟨rfl, c3_resolver_amended.1 c3Supported rfl, rfl⟩

/-- Claim C4 (code bug): the argument `{ a: false }` has only literal
leaves (per the spec's contract), yet the evaluator returns "unknown"
because the falsy literal value fails the source's truthiness check; and a
falsy scalar literal argument (`f(false)`) is omitted from
`literalArguments`, while truthy literal arguments are captured. -/
theorem c4_literal_truthiness_bug :
    specAllLiteralLeaves c4BadObj = true ∧
    maybeGetLiteralValue c4BadObj = none ∧
    (findFuncCalls c4CallFalse).map (fun l => l.map (fun cs =>
      (cs.arguments.length, cs.literalArguments.isEmpty))) = .ok [(1, true)] ∧
    (findFuncCalls c4CallTruthy).map (fun l => l.map (fun cs =>
      cs.literalArguments.length)) = .ok [2] ∧
    maybeGetLiteralValue (.objectExpr 5 13
      [.prop 7 11 (some (.ident 7 8 "a")) (.lit 10 11 (.num 1))]) =
      some (.obj [("a", .lit (.num 1))]) :=
  ⟨rfl, rfl, rfl, rfl, rfl⟩

/-- Claim C5 (counterexample): a hook nested in `describe.skip` gets a scope
frame carrying `skip`, but the produced hook record itself carries no
aggregate flags at all (the hook push site sets none), so the claimed
presence of aggregate flags on `HookCase` fails. -/
theorem c5_counterexample :
    (findTests (some c5HookTree)).map (fun r => (r.tests.length,
      r.hooks.map (fun kv => (kv.1, kv.2.map (fun hc =>
        (hc.skip, hc.only, hc.iosOnly, hc.androidOnly,
         hc.scope.map (fun fr => fr.skip))))))) =
      .ok (0, [("beforeAll", []),
               ("beforeEach", [(false, false, false, false, [true])]),
               ("afterAll", []), ("afterEach", [])]) :=
  rfl

/-- Claim C5 (amended): every produced `TestCase` aggregates each flag as
the OR over its scope frames (the site's own suffix contributes through its
own frame), and frame flags come from suffix matching; produced `HookCase`
records carry no aggregate flags, even when a frame sets one.  The two
concrete scenarios of the claim hold for test cases. -/
theorem c5_flags_amended :
    (∀ ast r, findTests ast = .ok r → ∀ tc ∈ r.tests,
      tc.skip = tc.scope.any (fun fr => fr.skip) ∧
      tc.only = tc.scope.any (fun fr => fr.only) ∧
      tc.iosOnly = tc.scope.any (fun fr => fr.iosOnly) ∧
      tc.androidOnly = tc.scope.any (fun fr => fr.androidOnly)) ∧
    (∀ ast r, findTests ast = .ok r → ∀ kv ∈ r.hooks, ∀ hc ∈ kv.2,
      hc.skip = false ∧ hc.only = false ∧ hc.iosOnly = false ∧
      hc.androidOnly = false) ∧
    (∀ p fr, mkFrame p = .ok fr →
      fr.skip = isSkip fr.func ∧ fr.only = isOnly fr.func ∧
      fr.iosOnly = isIosOnly fr.func ∧ fr.androidOnly = isAndroidOnly fr.func) ∧
    ((findTests (some c5SkipTree)).map (fun r => r.tests.map
      (fun tc => (tc.skip, tc.only))) = .ok [(true, false)]) ∧
    ((findTests (some c5OnlyTree)).map (fun r => r.tests.map
      (fun tc => (tc.only, tc.skip))) = .ok [(true, false)]) := by
  refine ⟨?_, ?_, mkFrame_flags, rfl, rfl⟩
  · intro ast r h
    exact (findTests_preserve _ (fun _ => True) classify_test_flags
      (fun _ _ _ _ _ => trivial) ast r h).1
  · intro ast r h
    exact (findTests_preserve (fun _ => True) _
      (fun _ _ _ _ => trivial) classify_hook_flags ast r h).2

/-- The test record produced for `it.skip("x", () => {})` at top level. -/
def c5WitnessRec : CaseRecord :=
  { scope := [{ name := .str "x", func := "it.skip", start := 0, stop := 24,
                skip := true, only := false, iosOnly := false,
                androidOnly := false }],
    start := 0, stop := 24, isAsync := some false, funcStart := 13,
    funcStop := 23, calls := [], skip := true, only := false,
    iosOnly := false, androidOnly := false }

/-- Witness for claim C5: the aggregate-flag equations instantiated on the
test produced by the `it.skip` tree. -/
theorem c5_flags_amended_witness :
    c5WitnessRec.skip = c5WitnessRec.scope.any (fun fr => fr.skip) ∧
    c5WitnessRec.only = c5WitnessRec.scope.any (fun fr => fr.only) ∧
    c5WitnessRec.iosOnly = c5WitnessRec.scope.any (fun fr => fr.iosOnly) ∧
    c5WitnessRec.androidOnly =
      c5WitnessRec.scope.any (fun fr => fr.androidOnly) :=
  c5_flags_amended.1 (some c5SkipTree) ⟨[c5WitnessRec], hooksInit⟩ rfl
    c5WitnessRec (by simp)

/-- Claim C6: a call is recorded as a hook iff it resolves to one of the
four hook names, has exactly one argument, that argument is a function
literal, and no ancestor scope frame is a test-identifier call; wrong arity
or argument shape is ignored entirely, with no record and no thrown
failure.  Top-level `beforeEach` lands in its bucket with an empty scope;
the same call inside `it(...)` is dropped. -/
theorem c6_hook_recognition :
    (∀ anc n k hc, classifyCall anc n = .ok (.hook k hc) →
      parseCallee n = some k ∧ SUPPORTED_HOOKS.contains k = true ∧
      (argsOf n).length = 1 ∧ (argsOf n).all isFuncLiteral = true ∧
      (scopePairs anc).any (fun pr => isTestIdentifier pr.2) = false) ∧
    (∀ anc n d f scope cs, parseCallee n = some d →
      SUPPORTED_HOOKS.contains d = true → argsOf n = [f] →
      isFuncLiteral f = true →
      (scopePairs anc).any (fun pr => isTestIdentifier pr.2) = false →
      mkFrames (scopePairs anc) = .ok scope → findFuncCalls f = .ok cs →
      classifyCall anc n = .ok (.hook d (mkHookRec n scope f cs))) ∧
    (∀ anc n d, parseCallee n = some d → SUPPORTED_HOOKS.contains d = true →
      (argsOf n).length ≠ 1 → classifyCall anc n = .ok .nothing) ∧
    (∀ anc n d f, parseCallee n = some d → SUPPORTED_HOOKS.contains d = true →
      argsOf n = [f] → isFuncLiteral f = false →
      classifyCall anc n = .ok .nothing) ∧
    ((findTests (some c6TopHookTree)).map (fun r => (r.tests.length,
      r.hooks.map (fun kv => (kv.1, kv.2.map (fun hc => hc.scope.length))))) =
      .ok (0, [("beforeAll", []), ("beforeEach", [0]), ("afterAll", []),
               ("afterEach", [])])) ∧
    ((findTests (some c6NestedHookTree)).map (fun r => (r.tests.length,
      r.hooks.map (fun kv => kv.2.length))) = .ok (1, [0, 0, 0, 0])) :=
  ⟨classify_hook_conditions, classify_hook_build, classify_hook_badArity,
   classify_hook_badShape, rfl, rfl⟩

/-- Witness for claim C6: recognition of a concrete top-level
`beforeEach(() => {})` call. -/
theorem c6_hook_recognition_witness :
    classifyCall [] c6WitnessCall = .ok (.hook "beforeEach"
      (mkHookRec c6WitnessCall []
        (Node.arrowFn 11 20 false (.blockStmt 17 20 [])) [])) :=
  c6_hook_recognition.2.1 [] c6WitnessCall "beforeEach"
    (Node.arrowFn 11 20 false (.blockStmt 17 20 [])) [] []
    rfl rfl rfl rfl rfl rfl rfl

/-- Claim C7: an exported `const` declaration with two declarators whose
second initializer is an arrow function makes the whole-file extraction
abort with the distinguished parse-limitations failure at the second
declarator's offset, for arbitrary first-declarator contents and offsets;
the abort also discards a previously registered export, and the condition is
likewise reached through a default-export identifier. -/
theorem c7_multi_declarator_fatal :
    (∀ (ps pe es ee vs ve d1s d1e d2s d2e a2s a2e : Nat)
       (id1 id2 init1 : Node) (aAsync : Bool) (aBody : Node),
      findExportedFunc (some (.program ps pe [.exportNamed es ee
        (some (.varDecl vs ve "const"
          [.varDeclarator d1s d1e id1 init1,
           .varDeclarator d2s d2e id2 (.arrowFn a2s a2e aAsync aBody)]))])) =
      .error (.parseLimitations multiDeclMessage d2s)) ∧
    findExportedFunc (some c7TwoStmtTree) =
      .error (.parseLimitations multiDeclMessage 44) ∧
    findExportedFunc (some c7DefaultTree) =
      .error (.parseLimitations multiDeclMessage 13) := by
  refine ⟨?_, rfl, rfl⟩
  intro ps pe es ee vs ve d1s d1e d2s d2e a2s a2e id1 id2 init1 aAsync aBody
  simp [findExportedFunc, processExportBody, exportStatementStep,
    maybeRegisterVariableDeclarations, declInitIsArrow, List.find?,
    isDefaultIdentExport, Node.startOf]

/-- Witness for claim C7: the universal instantiated at the offsets of
`export const a = x, b = () => {};`. -/
theorem c7_multi_declarator_fatal_witness :
    findExportedFunc (some (.program 0 40 [.exportNamed 0 40
      (some (.varDecl 7 40 "const"
        [.varDeclarator 13 18 (.ident 13 14 "a") (.ident 17 18 "x"),
         .varDeclarator 20 32 (.ident 20 21 "b")
           (.arrowFn 24 32 false (.blockStmt 30 32 []))]))])) =
    .error (.parseLimitations multiDeclMessage 20) :=
  c7_multi_declarator_fatal.1 0 40 0 40 7 40 13 18 20 32 24 32
    (.ident 13 14 "a") (.ident 20 21 "b") (.ident 17 18 "x") false
    (.blockStmt 30 32 [])

/-- Claim C8 (code bug): the per-file output of the test extractor is
`{tests, hooks}` whose hook mapping is keyed `beforeAll`, `beforeEach`,
`afterAll`, `afterEach` — not `before`/`after` as documented: a `beforeAll`
hook is recorded under the key "beforeAll". -/
theorem c8_output_shape_bug :
    (findTests (some (.program 0 0 []))).map
      (fun r => (r.tests, r.hooks.map Prod.fst)) =
      .ok ([], ["beforeAll", "beforeEach", "afterAll", "afterEach"]) ∧
    (findTests (some c8HookTree)).map
      (fun r => r.hooks.map (fun kv => (kv.1, kv.2.length))) =
      .ok [("beforeAll", 1), ("beforeEach", 0), ("afterAll", 0),
           ("afterEach", 0)] ∧
    ["beforeAll", "beforeEach", "afterAll", "afterEach"] ≠
      ["before", "beforeEach", "after", "afterEach"] :=
  ⟨rfl, rfl, by decide⟩

/-- Claim C9 (code bug): on the no-tree sentinel, `findTests` returns empty
results, but `findExportedFunc` throws the runtime type error (reading
`.body` of null) instead of returning empty results. -/
theorem c9_null_tree_bug :
    findTests none = .ok ⟨[], hooksInit⟩ ∧
    findExportedFunc none = .error .typeError :=
  ⟨rfl, rfl⟩

/-- Claim C10: a test-family call with fewer than two arguments makes the
extractor throw the runtime type error instead of silently skipping; with
the arity precondition met, the same call produces a test. -/
theorem c10_test_arity_precondition :
    (∀ anc n d, parseCallee n = some d → isTestIdentifier d = true →
      (argsOf n).length < 2 → classifyCall anc n = .error .typeError) ∧
    findTests (some c10ArityTree) = .error .typeError ∧
    (findTests (some c10OkTree)).map (fun r => r.tests.length) = .ok 1 :=
  ⟨classify_test_arity, rfl, rfl⟩

/-- Witness for claim C10: the arity failure instantiated at `it("x")`. -/
theorem c10_test_arity_precondition_witness :
    classifyCall [] (Node.call 0 8 (.ident 0 2 "it") [.lit 3 6 (.str "x")]) =
      .error .typeError :=
  c10_test_arity_precondition.1 [] (Node.call 0 8 (.ident 0 2 "it")
    [.lit 3 6 (.str "x")]) "it" rfl rfl (by decide)
